import Mathlib

/-!
Verification development for the financebot repository (bot.py, database.py,
pdf_generator.py).  The Python code is shallowly embedded: datetimes become a
record of calendar fields (all datetimes in the program carry the same fixed
Moscow timezone, so comparisons of aware datetimes coincide with wall-clock
field comparisons), the SQL expenses table becomes a list of rows, Python
floats holding money amounts are carried as rationals with the binary64
round-to-nearest step modelled explicitly where its rounding is observable,
and each aiogram handler becomes a pure state-transition function.
-/

namespace FinanceBot

/-- Wall-clock datetime fields, mirroring Python `datetime` (year ≥ 1). -/
structure DateTime where
  year : ℕ
  month : ℕ
  day : ℕ
  hour : ℕ
  minute : ℕ
  second : ℕ
  microsecond : ℕ
deriving DecidableEq, Repr

/-- Gregorian leap-year test, as Python's `calendar.isleap` / `datetime`. -/
def isLeap (y : ℕ) : Bool :=
  decide ((y % 4 = 0 ∧ y % 100 ≠ 0) ∨ y % 400 = 0)

/-- Number of days in month `m` of a year with leap flag `leap`. -/
def monthDays (leap : Bool) (m : ℕ) : ℕ :=
  if m = 2 then (if leap then 29 else 28)
  else if m = 4 ∨ m = 6 ∨ m = 9 ∨ m = 11 then 30
  else 31

/-- Days in the year before the first day of month `m` (1-based). -/
def daysBeforeMonth (leap : Bool) (m : ℕ) : ℕ :=
  let L : ℕ := if leap then 1 else 0
  match m with
  | 1 => 0
  | 2 => 31
  | 3 => 59 + L
  | 4 => 90 + L
  | 5 => 120 + L
  | 6 => 151 + L
  | 7 => 181 + L
  | 8 => 212 + L
  | 9 => 243 + L
  | 10 => 273 + L
  | 11 => 304 + L
  | 12 => 334 + L
  | _ => 0

/-- Days of all proleptic-Gregorian years strictly before year `y` (year 1 ↦ 0). -/
def daysBeforeYear (y : ℕ) : ℕ :=
  365 * (y - 1) + (y - 1) / 4 - (y - 1) / 100 + (y - 1) / 400

/-- Ordinal day number of a date: 0001-01-01 ↦ 0 (Python `toordinal` minus 1). -/
def dayNumber (dt : DateTime) : ℕ :=
  daysBeforeYear dt.year + daysBeforeMonth (isLeap dt.year) dt.month + (dt.day - 1)

/-- Microseconds elapsed since the date's midnight. -/
def timeUs (dt : DateTime) : ℕ :=
  ((dt.hour * 60 + dt.minute) * 60 + dt.second) * 1000000 + dt.microsecond

/-- Linearisation of a datetime to microseconds since 0001-01-01 00:00;
comparisons of the program's (same-timezone, aware) datetimes are comparisons
of this value. -/
def toUs (dt : DateTime) : ℕ :=
  dayNumber dt * 86400000000 + timeUs dt

/-- Python `datetime.weekday()`: Monday is 0.  0001-01-01 is a Monday in the
proleptic Gregorian calendar. -/
def weekday (dt : DateTime) : ℕ :=
  dayNumber dt % 7

/-- The previous calendar day (time fields untouched); calendar borrow across
month and year boundaries as in `datetime - timedelta(days=1)`. -/
def prevDay (dt : DateTime) : DateTime :=
  if 2 ≤ dt.day then { dt with day := dt.day - 1 }
  else if 2 ≤ dt.month then
    { dt with month := dt.month - 1,
              day := monthDays (isLeap dt.year) (dt.month - 1) }
  else { dt with year := dt.year - 1, month := 12, day := 31 }

/-- Subtraction of `n` days on wall-clock fields, as `dt - timedelta` does. -/
def subDays : DateTime → ℕ → DateTime
  | dt, 0 => dt
  | dt, n + 1 => subDays (prevDay dt) n

/-- Python `dt.replace(hour == 0, minute == 0, second == 0, microsecond == 0)`. -/
def replaceTime0 (dt : DateTime) : DateTime :=
  { dt with hour := 0, minute := 0, second := 0, microsecond := 0 }

/-- The calendar fields are in range (what Python `datetime` guarantees). -/
def ValidDate (dt : DateTime) : Prop :=
  1 ≤ dt.year ∧ 1 ≤ dt.month ∧ dt.month ≤ 12 ∧ 1 ≤ dt.day ∧
    dt.day ≤ monthDays (isLeap dt.year) dt.month

/-- Date and time-of-day fields are all in range. -/
def ValidDateTime (dt : DateTime) : Prop :=
  ValidDate dt ∧ dt.hour ≤ 23 ∧ dt.minute ≤ 59 ∧ dt.second ≤ 59 ∧
    dt.microsecond ≤ 999999

instance (dt : DateTime) : Decidable (ValidDate dt) := by
  unfold ValidDate; infer_instance

instance (dt : DateTime) : Decidable (ValidDateTime dt) := by
  unfold ValidDateTime; infer_instance

/-- Lower time bound computed by `get_expenses_by_period` (database.py lines
59–71) from the period string and `now`; `none` embeds the `return []` branch
for an unknown period. -/
def periodStartGet (period : String) (now : DateTime) : Option DateTime :=
  if period = "day" then
    some (replaceTime0 now)
  else if period = "week" then
    some (replaceTime0 (subDays now (weekday now)))
  else if period = "month" then
    some (replaceTime0 { now with day := 1 })
  else if period = "year" then
    some (replaceTime0 { now with month := 1, day := 1 })
  else none

/-- Lower time bound computed by `reset_stats` (database.py lines 128–139);
`none` embeds the early `return` for an unknown period.  The Python code
duplicates the boundary computation of `get_expenses_by_period` verbatim. -/
def periodStartReset (period : String) (now : DateTime) : Option DateTime :=
  if period = "day" then
    some (replaceTime0 now)
  else if period = "week" then
    some (replaceTime0 (subDays now (weekday now)))
  else if period = "month" then
    some (replaceTime0 { now with day := 1 })
  else if period = "year" then
    some (replaceTime0 { now with month := 1, day := 1 })
  else none

/-- A row of the `expenses` table (database.py lines 10–20).  Python float
amounts are carried as rationals — every binary64 double is a rational — and
where the rounding of float addition is observable (the aggregation of C6)
the binary64 rounding step is modelled explicitly by `fl`/`fadd` below. -/
structure ExpenseRow where
  user_id : ℤ
  amount : ℚ
  category : String
  date : DateTime
deriving DecidableEq, Repr

/-- Boolean `a ≤ b` on datetimes (same-timezone aware comparison). -/
def dtLeb (a b : DateTime) : Bool :=
  decide (toUs a ≤ toUs b)

/-- Insertion step for sorting rows by date descending (`ORDER BY date DESC`). -/
def insertByDateDesc (r : ExpenseRow) : List ExpenseRow → List ExpenseRow
  | [] => [r]
  | x :: xs =>
      if dtLeb x.date r.date then r :: x :: xs else x :: insertByDateDesc r xs

/-- Sort rows by date descending (`ORDER BY date DESC`). -/
def sortByDateDesc : List ExpenseRow → List ExpenseRow
  | [] => []
  | x :: xs => insertByDateDesc x (sortByDateDesc xs)

/-- Embedding of `add_expense` (database.py lines 41–55): appends one row timestamped with
the Moscow-time `now`.  The lazy upsert into the `users` table touches no
expense row and is not modelled. -/
def add_expense (db : List ExpenseRow) (user_id : ℤ) (amount : ℚ)
    (category : String) (now : DateTime) : List ExpenseRow :=
  db ++ [⟨user_id, amount, category, now⟩]

/-- Embedding of `get_expenses_by_period` (database.py lines 57–80): rows of this user with
`date >= start`, newest first; `[]` for an unknown period. -/
def get_expenses_by_period (db : List ExpenseRow) (user_id : ℤ)
    (period : String) (now : DateTime) : List ExpenseRow :=
  match periodStartGet period now with
  | none => []
  | some start =>
      sortByDateDesc
        (db.filter (fun r => r.user_id == user_id && dtLeb start r.date))

/-- Embedding of `get_expenses_by_date_range` (database.py lines 82–92): rows of this user
with `start_date <= date <= end_date`, newest first. -/
def get_expenses_by_date_range (db : List ExpenseRow) (user_id : ℤ)
    (start_date end_date : DateTime) : List ExpenseRow :=
  sortByDateDesc
    (db.filter (fun r =>
      r.user_id == user_id && dtLeb start_date r.date && dtLeb r.date end_date))

/-- Embedding of `reset_stats` (database.py lines 126–146): bulk delete of this user's rows
with `date >= start`; no-op for an unknown period. -/
def reset_stats (db : List ExpenseRow) (user_id : ℤ) (period : String)
    (now : DateTime) : List ExpenseRow :=
  match periodStartReset period now with
  | none => db
  | some start =>
      db.filter (fun r => !(r.user_id == user_id && dtLeb start r.date))

/-- Numeric value of a digit string, read left to right. -/
def digitsVal (l : List Char) : ℕ :=
  l.foldl (fun a c => a * 10 + (c.toNat - Char.toNat '0')) 0

/-- The amount-routing regex of bot.py line 342 (one or more digits, an
optional dot followed by one or two digits) combined with Python `float()`:
`some` holding the exact decimal value when the text matches, `none`
otherwise. -/
def amountParse (cs : List Char) : Option ℚ :=
  let intPart := cs.takeWhile (fun c => c ≠ '.')
  let rest := cs.dropWhile (fun c => c ≠ '.')
  if intPart.all Char.isDigit ∧ intPart ≠ [] then
    match rest with
    | [] => some (digitsVal intPart)
    | '.' :: frac =>
        if frac.all Char.isDigit ∧ 1 ≤ frac.length ∧ frac.length ≤ 2 then
          some ((digitsVal intPart : ℚ) +
            (digitsVal frac : ℚ) / ((10 : ℚ) ^ frac.length))
        else none
    | _ => none
  else none

/-- Split a character list at every dot. -/
def splitDots : List Char → List (List Char)
  | [] => [[]]
  | c :: rest =>
      if c = '.' then [] :: splitDots rest
      else
        match splitDots rest with
        | [] => [[c]]
        | g :: gs => (c :: g) :: gs

/-- Embedding of `parse_date` (bot.py lines 190–196): a strict `strptime` against
"%d.%m.%Y" — a 1–2 digit day, a 1–2 digit month, a 4-digit year forming a
real calendar date — then `replace` pinning the time to midnight in the
Moscow timezone.  `none` embeds the raised `ValueError`. -/
def parse_date (cs : List Char) : Option DateTime :=
  match splitDots cs with
  | [p1, p2, p3] =>
      if p1.all Char.isDigit ∧ 1 ≤ p1.length ∧ p1.length ≤ 2 ∧
          p2.all Char.isDigit ∧ 1 ≤ p2.length ∧ p2.length ≤ 2 ∧
          p3.all Char.isDigit ∧ p3.length = 4 then
        if 1 ≤ digitsVal p3 ∧ 1 ≤ digitsVal p2 ∧ digitsVal p2 ≤ 12 ∧
            1 ≤ digitsVal p1 ∧
            digitsVal p1 ≤ monthDays (isLeap (digitsVal p3)) (digitsVal p2) then
          some ⟨digitsVal p3, digitsVal p2, digitsVal p1, 0, 0, 0, 0⟩
        else none
      else none
  | _ => none

/-- Python `str.strip()`: drop leading and trailing whitespace. -/
def pyStrip (cs : List Char) : List Char :=
  ((cs.dropWhile Char.isWhitespace).reverse.dropWhile Char.isWhitespace).reverse

/-- One accumulation step of the per-category totals dictionary
(`category_totals[exp.category] += exp.amount`), keeping first-seen key
order as a Python dict does. -/
def bumpCategory (c : String) (a : ℚ) : List (String × ℚ) → List (String × ℚ)
  | [] => [(c, a)]
  | (c', t) :: rest =>
      if c' = c then (c', t + a) :: rest else (c', t) :: bumpCategory c a rest

/-- The grouping loop of `create_expense_chart` (bot.py lines 199–201) and of
`generate_expense_report` (pdf_generator.py lines 124–126): category → summed
amount, with exact rational addition in place of the program's binary64
addition; the float-faithful `groupByCategoryFloat` is below. -/
def groupByCategory (es : List ExpenseRow) : List (String × ℚ) :=
  es.foldl (fun m r => bumpCategory r.category r.amount m) []

/-- Sum of all amounts (`sum(exp.amount for exp in expenses)`, bot.py line
176, pdf_generator.py line 113) with exact rational addition in place of the
program's binary64 addition; the float-faithful `totalOfFloat` is below. -/
def totalOf (es : List ExpenseRow) : ℚ :=
  (es.map (fun r => r.amount)).sum

/-- Round-half-to-even of a rational to an integer. -/
def roundHalfEven (m : ℚ) : ℤ :=
  let f : ℤ := m.num / (m.den : ℤ)
  let r : ℚ := m - (f : ℚ)
  if r < 1/2 then f
  else if 1/2 < r then f + 1
  else if f % 2 = 0 then f else f + 1

/-- Powers of two with integer exponent. -/
def pow2z : ℤ → ℚ
  | .ofNat n => ((2 ^ n : ℕ) : ℚ)
  | .negSucc n => 1 / ((2 ^ (n + 1) : ℕ) : ℚ)

/-- Scale `m` by powers of two into the mantissa range [2^52, 2^53), then
round half-to-even and undo the scaling: the core of binary64 rounding.  The
fuel bound covers every IEEE-754 binary64 exponent. -/
def flScale : ℕ → ℚ → ℤ → ℚ
  | 0, m, _ => m
  | fuel + 1, m, e =>
      if m < 4503599627370496 then flScale fuel (m * 2) (e - 1)
      else if 9007199254740992 ≤ m then flScale fuel (m / 2) (e + 1)
      else (roundHalfEven m : ℚ) * pow2z e

/-- Round a rational to the nearest IEEE-754 binary64 value (ties to even),
exact over the normal finite range, which covers every amount the program
can store; overflow to infinity and subnormal precision loss are outside the
modelled range. -/
def fl (q : ℚ) : ℚ :=
  if q = 0 then 0
  else if q < 0 then -(flScale 2200 (-q) 0)
  else flScale 2200 q 0

/-- Binary64 float addition: IEEE-754 rounds the exact sum. -/
def fadd (a b : ℚ) : ℚ := fl (a + b)

/-- Python `sum` over floats: a left fold of binary64 addition from `0`. -/
def sumFloat (l : List ℚ) : ℚ := l.foldl fadd 0

/-- Float-faithful accumulation step of the per-category totals dictionary:
`category_totals[exp.category] += exp.amount` starts from `defaultdict`'s
`0.0` and adds with binary64 addition. -/
def bumpCategoryFloat (c : String) (a : ℚ) :
    List (String × ℚ) → List (String × ℚ)
  | [] => [(c, fadd 0 a)]
  | (c', t) :: rest =>
      if c' = c then (c', fadd t a) :: rest
      else (c', t) :: bumpCategoryFloat c a rest

/-- Float-faithful grouping loop of `create_expense_chart` (bot.py lines
199–201) and `generate_expense_report` (pdf_generator.py lines 124–126). -/
def groupByCategoryFloat (es : List ExpenseRow) : List (String × ℚ) :=
  es.foldl (fun m r => bumpCategoryFloat r.category r.amount m) []

/-- Float-faithful total (`sum(exp.amount for exp in expenses)`): the flat
amounts summed with binary64 addition. -/
def totalOfFloat (es : List ExpenseRow) : ℚ :=
  (es.map (fun r => r.amount)).foldl fadd 0

/-- A value of the `user_report_state` map (bot.py line 31): either
awaiting the start date, or awaiting the end date with the start stored. -/
inductive ReportState where
  | startStep : ReportState
  | endStep : DateTime → ReportState
deriving DecidableEq, Repr

/-- Outbound messages, one constructor per TEXTS entry a handler sends. -/
inductive Msg where
  | startText : Msg
  | mainMenu : Msg
  | chooseCategory : Msg
  | customCategoryPrompt : Msg
  | expenseAdded : ℚ → String → Msg
  | noAmount : Msg
  | zeroAmount : Msg
  | categoryTooLong : Msg
  | categoryTooShort : Msg
  | enterStartDate : Msg
  | enterEndDate : Msg
  | invalidDate : Msg
  | dateRangeError : Msg
  | generatingReport : Msg
  | reportSent : Msg
  | noDataReport : Msg
  | statsShown : String → Msg
  | chartShown : String → Msg
  | statsMenuShown : Msg
  | reportMenuShown : Msg
  | resetMenuShown : Msg
  | confirmResetPrompt : String → Msg
  | resetCancelled : Msg
  | statsCleared : Msg
  | errorText : Msg
deriving DecidableEq, Repr

/-- The global per-user maps of bot.py lines 29–32 plus the expenses table.
(`user_last_messages` only tracks message ids for best-effort deletion and is
not modelled.) -/
structure BotState where
  pending_expenses : ℤ → Option ℚ
  user_report_state : ℤ → Option ReportState
  user_confirmation_state : ℤ → Option String
  db : List ExpenseRow

/-- Point update of the `pending_expenses` map. -/
def setPending (st : BotState) (u : ℤ) (v : Option ℚ) : BotState :=
  { st with pending_expenses := fun x => if x = u then v else st.pending_expenses x }

/-- Point update of the `user_report_state` map. -/
def setReport (st : BotState) (u : ℤ) (v : Option ReportState) : BotState :=
  { st with user_report_state := fun x => if x = u then v else st.user_report_state x }

/-- Point update of the `user_confirmation_state` map. -/
def setConfirm (st : BotState) (u : ℤ) (v : Option String) : BotState :=
  { st with user_confirmation_state :=
      fun x => if x = u then v else st.user_confirmation_state x }

/-- Embedding of `get_amount` (bot.py lines 342–353), reached exactly for texts matching
the amount regex; `a` is the parsed value. -/
def get_amount (st : BotState) (u : ℤ) (a : ℚ) : BotState × List Msg :=
  if a = 0 then (st, [Msg.zeroAmount])
  else (setPending st u (some a), [Msg.chooseCategory])

/-- Success of `generate_pdf_report` over an explicit date range (bot.py
lines 257–317, custom branch): the report exists iff the range holds at
least one expense; rendering and transport are outside the model. -/
def generate_pdf_report_range (st : BotState) (u : ℤ)
    (start_date end_date : DateTime) : Bool :=
  !(get_expenses_by_date_range st.db u start_date end_date).isEmpty

/-- Success of `generate_pdf_report` over a named period (bot.py lines
257–317, period branch). -/
def generate_pdf_report_period (st : BotState) (u : ℤ) (period : String)
    (now : DateTime) : Bool :=
  !(get_expenses_by_period st.db u period now).isEmpty

/-- Embedding of `handle_text_input` (bot.py lines 386–450), reached exactly for texts not
matching the amount regex: custom category entry when an amount is pending,
else custom-report date entry when a report state exists, else nothing. -/
def handle_text_input (st : BotState) (u : ℤ) (text : List Char)
    (now : DateTime) : BotState × List Msg :=
  let t := pyStrip text
  match st.pending_expenses u with
  | some amount =>
      if 50 < t.length then (st, [Msg.categoryTooLong])
      else if t.length < 2 then (st, [Msg.categoryTooShort])
      else
        ({ setPending st u none with
            db := add_expense st.db u amount (String.mk t) now },
          [Msg.expenseAdded amount (String.mk t), Msg.mainMenu])
  | none =>
      match st.user_report_state u with
      | none => (st, [])
      | some rs =>
          match parse_date t with
          | none => (st, [Msg.invalidDate])
          | some date =>
              match rs with
              | .startStep =>
                  (setReport st u (some (.endStep date)), [Msg.enterEndDate])
              | .endStep start_date =>
                  if decide (toUs date < toUs start_date) then
                    (st, [Msg.dateRangeError])
                  else
                    (setReport st u none,
                      [Msg.generatingReport] ++
                        (if generate_pdf_report_range st u start_date date then
                          [Msg.reportSent]
                        else [Msg.noDataReport]) ++ [Msg.mainMenu])

/-- Embedding of `category_chosen` (bot.py lines 366–384): fixed-list category button. -/
def category_chosen (st : BotState) (u : ℤ) (category : String)
    (now : DateTime) : BotState × List Msg :=
  match st.pending_expenses u with
  | none => (st, [Msg.noAmount])
  | some amount =>
      ({ setPending st u none with
          db := add_expense st.db u amount category now },
        [Msg.expenseAdded amount category, Msg.mainMenu])

/-- Embedding of `ask_custom_category` (bot.py lines 355–364). -/
def ask_custom_category (st : BotState) (u : ℤ) : BotState × List Msg :=
  match st.pending_expenses u with
  | none => (st, [Msg.noAmount])
  | some _ => (st, [Msg.customCategoryPrompt])

/-- Embedding of `handle_report_request` (bot.py lines 526–547). -/
def handle_report_request (st : BotState) (u : ℤ) (period : String)
    (now : DateTime) : BotState × List Msg :=
  if period = "custom" then
    (setReport st u (some .startStep), [Msg.enterStartDate])
  else
    (st, [Msg.generatingReport] ++
      (if generate_pdf_report_period st u period now then [Msg.reportSent]
      else [Msg.noDataReport]) ++ [Msg.mainMenu])

/-- Embedding of `reset_stats_handler` (bot.py lines 554–565): arms the confirmation. -/
def reset_stats_handler (st : BotState) (u : ℤ) (period : String) :
    BotState × List Msg :=
  (setConfirm st u (some period), [Msg.confirmResetPrompt period])

/-- Embedding of `confirm_reset_handler` (bot.py lines 567–580): deletes only when a
confirmation is pending; the period deleted is the one carried by the
button. -/
def confirm_reset_handler (st : BotState) (u : ℤ) (period : String)
    (now : DateTime) : BotState × List Msg :=
  match st.user_confirmation_state u with
  | none => (st, [Msg.errorText])
  | some _ =>
      ({ setConfirm st u none with db := reset_stats st.db u period now },
        [Msg.statsCleared])

/-- Embedding of `cancel_reset_handler` (bot.py lines 582–590). -/
def cancel_reset_handler (st : BotState) (u : ℤ) : BotState × List Msg :=
  (setConfirm st u none, [Msg.resetCancelled])

/-- One inbound update: a text message or a callback button press. -/
inductive Event where
  | textMsg : List Char → Event
  | startCmd : Event
  | backMain : Event
  | statsMenu : Event
  | statsPeriod : String → Event
  | chart : String → Event
  | reportMenu : Event
  | reportRequest : String → Event
  | customCategory : Event
  | categoryButton : String → Event
  | resetMenu : Event
  | resetPeriod : String → Event
  | confirmReset : String → Event
  | cancelReset : Event
deriving DecidableEq, Repr

/-- Dispatch of one update for one user, mirroring the aiogram routing of
bot.py: a text matching the amount regex goes to `get_amount`, any other
text to `handle_text_input`; each callback goes to its handler.  Handlers
that only display data leave the state unchanged. -/
def step (st : BotState) (u : ℤ) (now : DateTime) : Event → BotState × List Msg
  | .textMsg text =>
      match amountParse text with
      | some a => get_amount st u a
      | none => handle_text_input st u text now
  | .startCmd => (st, [Msg.startText])
  | .backMain => (st, [Msg.mainMenu])
  | .statsMenu => (st, [Msg.statsMenuShown])
  | .statsPeriod p => (st, [Msg.statsShown p])
  | .chart p => (st, [Msg.chartShown p])
  | .reportMenu => (st, [Msg.reportMenuShown])
  | .reportRequest p => handle_report_request st u p now
  | .customCategory => ask_custom_category st u
  | .categoryButton c => category_chosen st u c now
  | .resetMenu => (st, [Msg.resetMenuShown])
  | .resetPeriod p => reset_stats_handler st u p
  | .confirmReset p => confirm_reset_handler st u p now
  | .cancelReset => cancel_reset_handler st u

/-- Process start: empty maps, empty expenses table. -/
def initState : BotState :=
  { pending_expenses := fun _ => none,
    user_report_state := fun _ => none,
    user_confirmation_state := fun _ => none,
    db := [] }

/-- Run a sequence of updates, each carrying its user id, its
`datetime.now()` instant and its event. -/
def runTrace : BotState → List (ℤ × DateTime × Event) → BotState
  | st, [] => st
  | st, (u, now, e) :: rest => runTrace (step st u now e).1 rest

/-- Invariant: every stored pending amount and every persisted expense
amount is strictly positive. -/
def PositiveAmounts (st : BotState) : Prop :=
  (∀ u a, st.pending_expenses u = some a → 0 < a) ∧
    ∀ r ∈ st.db, 0 < r.amount

-- ### Calendar lemmas

theorem monthDays_pos (L : Bool) (m : ℕ) : 1 ≤ monthDays L m := by
  unfold monthDays; split_ifs <;> norm_num

theorem daysBeforeMonth_step (L : Bool) :
    ∀ m, m < 13 → 2 ≤ m →
      daysBeforeMonth L (m - 1) + monthDays L (m - 1) = daysBeforeMonth L m := by
  cases L <;> decide

set_option maxHeartbeats 1000000 in
theorem daysBeforeYear_succ (n : ℕ) (hn : 1 ≤ n) :
    daysBeforeYear (n + 1) =
      daysBeforeYear n + 365 + (if isLeap n then 1 else 0) := by
  obtain ⟨k, rfl⟩ : ∃ k, n = k + 1 := ⟨n - 1, by omega⟩
  unfold daysBeforeYear isLeap
  simp only [Nat.add_sub_cancel, decide_eq_true_eq]
  split_ifs <;> omega

theorem daysBeforeYear_one : daysBeforeYear 1 = 0 := by
  unfold daysBeforeYear; norm_num

theorem prevDay_hour (dt : DateTime) : (prevDay dt).hour = dt.hour := by
  unfold prevDay; split_ifs <;> rfl

theorem prevDay_minute (dt : DateTime) : (prevDay dt).minute = dt.minute := by
  unfold prevDay; split_ifs <;> rfl

theorem prevDay_second (dt : DateTime) : (prevDay dt).second = dt.second := by
  unfold prevDay; split_ifs <;> rfl

theorem prevDay_microsecond (dt : DateTime) :
    (prevDay dt).microsecond = dt.microsecond := by
  unfold prevDay; split_ifs <;> rfl

/-- Stepping one day back from a valid date after 0001-01-01 stays valid and
decreases the ordinal day number by exactly one. -/
theorem prevDay_spec (dt : DateTime) (hv : ValidDate dt)
    (hpos : 1 ≤ dayNumber dt) :
    ValidDate (prevDay dt) ∧ dayNumber (prevDay dt) + 1 = dayNumber dt := by
  obtain ⟨hy, hm1, hm12, hd1, hdm⟩ := hv
  unfold prevDay
  split_ifs with h2 hm2
  · -- day ≥ 2: same month
    constructor
    · show 1 ≤ dt.year ∧ 1 ≤ dt.month ∧ dt.month ≤ 12 ∧ 1 ≤ dt.day - 1 ∧
        dt.day - 1 ≤ monthDays (isLeap dt.year) dt.month
      exact ⟨hy, hm1, hm12, by omega, by omega⟩
    · show daysBeforeYear dt.year + daysBeforeMonth (isLeap dt.year) dt.month +
          (dt.day - 1 - 1) + 1 = dayNumber dt
      simp only [dayNumber]
      omega
  · -- day = 1, month ≥ 2: end of previous month
    have hd : dt.day = 1 := by omega
    have hstep := daysBeforeMonth_step (isLeap dt.year) dt.month (by omega) hm2
    have hpos' := monthDays_pos (isLeap dt.year) (dt.month - 1)
    constructor
    · show 1 ≤ dt.year ∧ 1 ≤ dt.month - 1 ∧ dt.month - 1 ≤ 12 ∧
        1 ≤ monthDays (isLeap dt.year) (dt.month - 1) ∧
        monthDays (isLeap dt.year) (dt.month - 1) ≤
          monthDays (isLeap dt.year) (dt.month - 1)
      exact ⟨hy, by omega, by omega, hpos', le_refl _⟩
    · show daysBeforeYear dt.year + daysBeforeMonth (isLeap dt.year) (dt.month - 1) +
          (monthDays (isLeap dt.year) (dt.month - 1) - 1) + 1 = dayNumber dt
      simp only [dayNumber]
      omega
  · -- day = 1, month = 1: December 31 of the previous year
    have hd : dt.day = 1 := by omega
    have hm : dt.month = 1 := by omega
    have hdbm1 : daysBeforeMonth (isLeap dt.year) dt.month = 0 := by
      rw [hm]; rfl
    have hdn : dayNumber dt = daysBeforeYear dt.year := by
      simp only [dayNumber, hdbm1, hd]
      omega
    have hy2 : 2 ≤ dt.year := by
      by_contra hcon
      have h1 : dt.year = 1 := by omega
      rw [hdn, h1, daysBeforeYear_one] at hpos
      omega
    have hsucc := daysBeforeYear_succ (dt.year - 1) (by omega)
    have hyy : dt.year - 1 + 1 = dt.year := by omega
    rw [hyy] at hsucc
    have h12 : monthDays (isLeap (dt.year - 1)) 12 = 31 := by
      cases h : isLeap (dt.year - 1) <;> rfl
    have hdbm12 : daysBeforeMonth (isLeap (dt.year - 1)) 12 =
        334 + (if isLeap (dt.year - 1) then 1 else 0) := by
      cases h : isLeap (dt.year - 1) <;> rfl
    constructor
    · show 1 ≤ dt.year - 1 ∧ 1 ≤ 12 ∧ 12 ≤ 12 ∧ 1 ≤ 31 ∧
        31 ≤ monthDays (isLeap (dt.year - 1)) 12
      exact ⟨by omega, by norm_num, le_refl _, by norm_num, by rw [h12]⟩
    · show daysBeforeYear (dt.year - 1) + daysBeforeMonth (isLeap (dt.year - 1)) 12 +
          (31 - 1) + 1 = dayNumber dt
      rw [hdbm12, hdn, hsucc]
      omega

/-- Iterating `prevDay` by at most the day number keeps the date valid and
subtracts exactly that many days. -/
theorem subDays_spec :
    ∀ (n : ℕ) (dt : DateTime), ValidDate dt → n ≤ dayNumber dt →
      ValidDate (subDays dt n) ∧ dayNumber (subDays dt n) + n = dayNumber dt ∧
        (subDays dt n).hour = dt.hour ∧ (subDays dt n).minute = dt.minute ∧
        (subDays dt n).second = dt.second ∧
        (subDays dt n).microsecond = dt.microsecond
  | 0, dt, hv, _ => ⟨hv, rfl, rfl, rfl, rfl, rfl⟩
  | n + 1, dt, hv, hle => by
    have hstep := prevDay_spec dt hv (by omega)
    have ih := subDays_spec n (prevDay dt) hstep.1 (by omega)
    refine ⟨ih.1, by have := ih.2.1; simp only [subDays]; omega, ?_, ?_, ?_, ?_⟩
    · simp only [subDays]; rw [ih.2.2.1, prevDay_hour]
    · simp only [subDays]; rw [ih.2.2.2.1, prevDay_minute]
    · simp only [subDays]; rw [ih.2.2.2.2.1, prevDay_second]
    · simp only [subDays]; rw [ih.2.2.2.2.2, prevDay_microsecond]

theorem toUs_replaceTime0 (dt : DateTime) :
    toUs (replaceTime0 dt) = dayNumber dt * 86400000000 := by
  simp [toUs, replaceTime0, timeUs, dayNumber]

theorem dayNumber_day1 (dt : DateTime) :
    dayNumber { dt with day := 1 } =
      daysBeforeYear dt.year + daysBeforeMonth (isLeap dt.year) dt.month := rfl

theorem dayNumber_month1_day1 (dt : DateTime) :
    dayNumber { dt with month := 1, day := 1 } = daysBeforeYear dt.year := rfl

theorem toUs_eq (dt : DateTime) :
    toUs dt = dayNumber dt * 86400000000 + timeUs dt := rfl

/-- The period-start computation is shared between `periodStartReset` and
`periodStartGet` (the Python bodies are duplicated verbatim). -/
theorem periodStartReset_eq_get :
    periodStartReset = periodStartGet := rfl

theorem filter_filter_not {α : Type} (p : α → Bool) :
    ∀ l : List α, (l.filter (fun a => !(p a))).filter p = []
  | [] => rfl
  | a :: l => by
    cases h : p a <;>
      simp [List.filter_cons, h, filter_filter_not p l]

theorem filter_subpred {α : Type} (f g : α → Bool)
    (h : ∀ a, g a = true → f a = true) :
    ∀ l : List α, (l.filter f).filter g = l.filter g
  | [] => rfl
  | a :: l => by
    have ih := filter_subpred f g h l
    cases hg : g a with
    | true =>
      have hf := h a hg
      simp only [List.filter_cons, hf, hg, if_true, ih]
    | false =>
      cases hf : f a with
      | true => simp only [List.filter_cons, hf, hg, if_true, if_false, ih]
      | false =>
        simp only [List.filter_cons, hf, hg, Bool.false_eq_true, if_false, ih]

theorem filter_append_other (u : ℤ) (row : ExpenseRow) (hrow : row.user_id = u) :
    ∀ db : List ExpenseRow,
      ((db ++ [row]).filter (fun r => !(r.user_id == u))) =
        db.filter (fun r => !(r.user_id == u)) := by
  intro db
  rw [List.filter_append]
  simp [List.filter_cons, hrow]

/-- C1: for every period in {day, week, month, year} and every (valid) instant
`T`, the period start is deterministic in `T` and is at or before `T`. -/
theorem periodStart_deterministic_and_le (p : String) (T : DateTime)
    (hp : p = "day" ∨ p = "week" ∨ p = "month" ∨ p = "year")
    (hT : ValidDateTime T) :
    (∀ s₁ s₂, periodStartGet p T = some s₁ → periodStartGet p T = some s₂ →
        s₁ = s₂) ∧
      ∃ s, periodStartGet p T = some s ∧ toUs s ≤ toUs T := by
  constructor
  · intro s₁ s₂ h₁ h₂
    rw [h₁] at h₂
    exact Option.some.inj h₂
  · obtain ⟨hvd, -⟩ := hT
    rcases hp with hp | hp | hp | hp
    · -- day
      refine ⟨replaceTime0 T, by simp [periodStartGet, hp], ?_⟩
      rw [toUs_replaceTime0, toUs_eq]
      omega
    · -- week
      refine ⟨replaceTime0 (subDays T (weekday T)), by simp [periodStartGet, hp], ?_⟩
      have hwd : weekday T ≤ dayNumber T := Nat.mod_le _ _
      have hs := subDays_spec (weekday T) T hvd hwd
      rw [toUs_replaceTime0, toUs_eq]
      have := hs.2.1
      omega
    · -- month
      refine ⟨replaceTime0 { T with day := 1 }, by simp [periodStartGet, hp], ?_⟩
      rw [toUs_replaceTime0, dayNumber_day1, toUs_eq]
      simp only [dayNumber]
      omega
    · -- year
      refine ⟨replaceTime0 { T with month := 1, day := 1 },
        by simp [periodStartGet, hp], ?_⟩
      rw [toUs_replaceTime0, dayNumber_month1_day1, toUs_eq]
      simp only [dayNumber]
      omega

/-- Witness for C1 at the concrete instant 2024-01-03 (a Wednesday) 12:30 MSK
with period "week". -/
theorem periodStart_deterministic_and_le_witness :
    (∀ s₁ s₂,
        periodStartGet "week" ⟨2024, 1, 3, 12, 30, 0, 0⟩ = some s₁ →
        periodStartGet "week" ⟨2024, 1, 3, 12, 30, 0, 0⟩ = some s₂ → s₁ = s₂) ∧
      ∃ s, periodStartGet "week" ⟨2024, 1, 3, 12, 30, 0, 0⟩ = some s ∧
        toUs s ≤ toUs ⟨2024, 1, 3, 12, 30, 0, 0⟩ :=
  periodStart_deterministic_and_le "week" ⟨2024, 1, 3, 12, 30, 0, 0⟩
    (Or.inr (Or.inl rfl)) (by decide)

/-- C8: for every period and every `now`, `reset_stats` uses exactly the same
lower time bound as `get_expenses_by_period` — the two period-boundary
computations are the same function. -/
theorem reset_boundary_eq_get_boundary :
    ∀ (period : String) (now : DateTime),
      periodStartReset period now = periodStartGet period now :=
  fun _ _ => rfl

/-- C2: resetting a period then querying the same period (same `now`) yields
an empty result; the reset preserves every other user's rows exactly, and
`add_expense` likewise only touches the given user's rows. -/
theorem reset_then_get_empty_and_user_scoped (db : List ExpenseRow) (u : ℤ)
    (p : String) (now : DateTime) (a : ℚ) (c : String) :
    get_expenses_by_period (reset_stats db u p now) u p now = [] ∧
      (reset_stats db u p now).filter (fun r => !(r.user_id == u)) =
        db.filter (fun r => !(r.user_id == u)) ∧
      (add_expense db u a c now).filter (fun r => !(r.user_id == u)) =
        db.filter (fun r => !(r.user_id == u)) := by
  refine ⟨?_, ?_, ?_⟩
  · unfold get_expenses_by_period reset_stats
    rw [periodStartReset_eq_get]
    cases h : periodStartGet p now with
    | none => rfl
    | some start =>
        simp only [h]
        rw [filter_filter_not]
        rfl
  · unfold reset_stats
    cases h : periodStartReset p now with
    | none => rfl
    | some start =>
        simp only [h]
        refine filter_subpred _ _ ?_ db
        intro r hr
        cases hq : r.user_id == u
        · simp [hq]
        · rw [hq] at hr
          simp at hr
  · exact filter_append_other u ⟨u, a, c, now⟩ rfl db

theorem bumpCategory_sum (c : String) (a : ℚ) :
    ∀ m : List (String × ℚ),
      ((bumpCategory c a m).map Prod.snd).sum = (m.map Prod.snd).sum + a
  | [] => by simp [bumpCategory]
  | (c', t) :: rest => by
    by_cases h : c' = c
    · simp [bumpCategory, h]
      ring
    · simp [bumpCategory, h, bumpCategory_sum c a rest]
      ring

theorem groupFold_sum :
    ∀ (es : List ExpenseRow) (m : List (String × ℚ)),
      ((es.foldl (fun acc r => bumpCategory r.category r.amount acc) m).map
          Prod.snd).sum = (m.map Prod.snd).sum + totalOf es
  | [], m => by simp [totalOf]
  | r :: es, m => by
    rw [List.foldl_cons, groupFold_sum es (bumpCategory r.category r.amount m),
      bumpCategory_sum]
    simp [totalOf]
    ring

/-- C6 (amended): for every non-empty list of expenses, the per-category
totals of the grouping sum exactly to the total of all amounts when the
amounts are aggregated with exact rational addition; under the program's
binary64 float addition the two aggregates can differ by rounding, as the
counterexample at [1.2 B, 2.53 A, 1.2 A, 0.85 B, 2.25 B, 1.27 A] shows. -/
theorem groupByCategory_sum_eq_totalOf (es : List ExpenseRow) (hne : es ≠ []) :
    ((groupByCategory es).map Prod.snd).sum = totalOf es := by
  have h := groupFold_sum es []
  simpa [groupByCategory] using h

/-- Witness for C6 on a concrete three-expense list with a repeated
category and a fractional amount. -/
theorem groupByCategory_sum_eq_totalOf_witness :
    ((groupByCategory
        [⟨1, 250, "Food", ⟨2024, 1, 1, 10, 0, 0, 0⟩⟩,
          ⟨1, (125 : ℚ) / 2, "Food", ⟨2024, 1, 1, 11, 0, 0, 0⟩⟩,
          ⟨1, 40, "Taxi", ⟨2024, 1, 1, 12, 0, 0, 0⟩⟩]).map Prod.snd).sum =
      totalOf
        [⟨1, 250, "Food", ⟨2024, 1, 1, 10, 0, 0, 0⟩⟩,
          ⟨1, (125 : ℚ) / 2, "Food", ⟨2024, 1, 1, 11, 0, 0, 0⟩⟩,
          ⟨1, 40, "Taxi", ⟨2024, 1, 1, 12, 0, 0, 0⟩⟩] :=
  groupByCategory_sum_eq_totalOf _ (by simp)

/-- C3: with the conversation Idle, a zero-valued amount text (any text
matching the amount regex whose value is 0) is rejected in place: the state
is unchanged Idle, no pending amount is stored, no expense is created, and a
validation message is sent. -/
theorem zero_amount_rejected (st : BotState) (u : ℤ) (now : DateTime)
    (text : List Char)
    (hpend : st.pending_expenses u = none)
    (hrep : st.user_report_state u = none)
    (hconf : st.user_confirmation_state u = none)
    (hz : amountParse text = some 0) :
    (step st u now (.textMsg text)).1 = st ∧
      (step st u now (.textMsg text)).1.pending_expenses u = none ∧
      (step st u now (.textMsg text)).1.db = st.db ∧
      (step st u now (.textMsg text)).2 = [Msg.zeroAmount] := by
  simp [step, hz, get_amount, hpend]

/-- Witness for C3 with the text "0" at a concrete instant. -/
theorem zero_amount_rejected_witness :
    (step initState 1 ⟨2024, 1, 1, 12, 0, 0, 0⟩ (.textMsg ['0'])).1 = initState ∧
      (step initState 1 ⟨2024, 1, 1, 12, 0, 0, 0⟩
          (.textMsg ['0'])).1.pending_expenses 1 = none ∧
      (step initState 1 ⟨2024, 1, 1, 12, 0, 0, 0⟩ (.textMsg ['0'])).1.db =
        initState.db ∧
      (step initState 1 ⟨2024, 1, 1, 12, 0, 0, 0⟩ (.textMsg ['0'])).2 =
        [Msg.zeroAmount] :=
  zero_amount_rejected initState 1 ⟨2024, 1, 1, 12, 0, 0, 0⟩ ['0']
    rfl rfl rfl (by decide)

/-- C7 (counterexample to spec inclusivity): the custom-range query bounds the
range by midnight of the end date, so the expense timestamped 15:00 on the
end date 31.12.2024 is excluded from the report over
["01.12.2024", "31.12.2024"] even though the claim includes any time of day
on the end date. -/
theorem custom_range_excludes_end_day_afternoon :
    parse_date ['0', '1', '.', '1', '2', '.', '2', '0', '2', '4'] =
        some ⟨2024, 12, 1, 0, 0, 0, 0⟩ ∧
      parse_date ['3', '1', '.', '1', '2', '.', '2', '0', '2', '4'] =
        some ⟨2024, 12, 31, 0, 0, 0, 0⟩ ∧
      get_expenses_by_date_range
          [⟨1, 100, "Food", ⟨2024, 12, 31, 15, 0, 0, 0⟩⟩] 1
          ⟨2024, 12, 1, 0, 0, 0, 0⟩ ⟨2024, 12, 31, 0, 0, 0, 0⟩ = [] := by
  refine ⟨by decide, by decide, by decide⟩

/-- C4: in AwaitingCategory, a free-text category whose stripped length is
out of bounds re-prompts and keeps the pending amount and the whole state
unchanged; a subsequent in-bounds category is accepted, appends exactly one
expense carrying the originally pending amount and that category, and clears
the pending amount (back to Idle). -/
theorem category_length_reprompt_then_accept
    (st : BotState) (u : ℤ) (now₁ now₂ : DateTime) (a : ℚ) (t₁ t₂ : List Char)
    (hpend : st.pending_expenses u = some a)
    (hr₁ : amountParse t₁ = none)
    (hbad : (pyStrip t₁).length < 2 ∨ 50 < (pyStrip t₁).length)
    (hr₂ : amountParse t₂ = none)
    (hlen₂ : 2 ≤ (pyStrip t₂).length) (hlen₂' : (pyStrip t₂).length ≤ 50) :
    (step st u now₁ (.textMsg t₁)).1 = st ∧
      (step st u now₁ (.textMsg t₁)).1.pending_expenses u = some a ∧
      ((step st u now₁ (.textMsg t₁)).2 = [Msg.categoryTooShort] ∨
        (step st u now₁ (.textMsg t₁)).2 = [Msg.categoryTooLong]) ∧
      (step (step st u now₁ (.textMsg t₁)).1 u now₂ (.textMsg t₂)).1.db =
        st.db ++ [⟨u, a, String.mk (pyStrip t₂), now₂⟩] ∧
      (step (step st u now₁ (.textMsg t₁)).1 u now₂
          (.textMsg t₂)).1.pending_expenses u = none := by
  have hns₂ : ¬ (50 < (pyStrip t₂).length) := by omega
  have hns₂' : ¬ ((pyStrip t₂).length < 2) := by omega
  have hfst : (step st u now₁ (.textMsg t₁)).1 = st := by
    rcases hbad with hs | hl
    · have hns : ¬ (50 < (pyStrip t₁).length) := by omega
      simp [step, hr₁, handle_text_input, hpend, hns, hs]
    · simp [step, hr₁, handle_text_input, hpend, hl]
  have hmsg : (step st u now₁ (.textMsg t₁)).2 = [Msg.categoryTooShort] ∨
      (step st u now₁ (.textMsg t₁)).2 = [Msg.categoryTooLong] := by
    rcases hbad with hs | hl
    · left
      have hns : ¬ (50 < (pyStrip t₁).length) := by omega
      simp [step, hr₁, handle_text_input, hpend, hns, hs]
    · right
      simp [step, hr₁, handle_text_input, hpend, hl]
  have hstep2 : step (step st u now₁ (.textMsg t₁)).1 u now₂ (.textMsg t₂) =
      ({ setPending st u none with
          db := add_expense st.db u a (String.mk (pyStrip t₂)) now₂ },
        [Msg.expenseAdded a (String.mk (pyStrip t₂)), Msg.mainMenu]) := by
    rw [hfst]
    simp [step, hr₂, handle_text_input, hpend, hns₂, hns₂']
  refine ⟨hfst, ?_, hmsg, ?_, ?_⟩
  · rw [hfst, hpend]
  · rw [hstep2]
    simp [add_expense]
  · rw [hstep2]
    simp [setPending]

/-- Witness for C4: pending amount 199, rejected category "A", accepted
category "Taxi". -/
theorem category_length_reprompt_then_accept_witness :
    (step (setPending initState 1 (some 199)) 1 ⟨2024, 1, 2, 9, 0, 0, 0⟩
        (.textMsg ['A'])).1 = setPending initState 1 (some 199) ∧
      (step (setPending initState 1 (some 199)) 1 ⟨2024, 1, 2, 9, 0, 0, 0⟩
          (.textMsg ['A'])).1.pending_expenses 1 = some 199 ∧
      ((step (setPending initState 1 (some 199)) 1 ⟨2024, 1, 2, 9, 0, 0, 0⟩
          (.textMsg ['A'])).2 = [Msg.categoryTooShort] ∨
        (step (setPending initState 1 (some 199)) 1 ⟨2024, 1, 2, 9, 0, 0, 0⟩
          (.textMsg ['A'])).2 = [Msg.categoryTooLong]) ∧
      (step (step (setPending initState 1 (some 199)) 1 ⟨2024, 1, 2, 9, 0, 0, 0⟩
          (.textMsg ['A'])).1 1 ⟨2024, 1, 2, 9, 5, 0, 0⟩
          (.textMsg ['T', 'a', 'x', 'i'])).1.db =
        (setPending initState 1 (some 199)).db ++
          [⟨1, 199, String.mk (pyStrip ['T', 'a', 'x', 'i']),
            ⟨2024, 1, 2, 9, 5, 0, 0⟩⟩] ∧
      (step (step (setPending initState 1 (some 199)) 1 ⟨2024, 1, 2, 9, 0, 0, 0⟩
          (.textMsg ['A'])).1 1 ⟨2024, 1, 2, 9, 5, 0, 0⟩
          (.textMsg ['T', 'a', 'x', 'i'])).1.pending_expenses 1 = none :=
  category_length_reprompt_then_accept (setPending initState 1 (some 199)) 1
    ⟨2024, 1, 2, 9, 0, 0, 0⟩ ⟨2024, 1, 2, 9, 5, 0, 0⟩ 199
    ['A'] ['T', 'a', 'x', 'i'] (by decide) (by decide)
    (Or.inl (by decide)) (by decide) (by decide) (by decide)

/-- C5: in AwaitingCustomRangeEnd, an end date strictly before the stored
start produces only the range error, no report, and leaves the state still
awaiting the end date with the same start; an end date at or after the start
is accepted: the state returns to Idle and the report flow runs. -/
theorem custom_range_end_validation (st : BotState) (u : ℤ) (now : DateTime)
    (t : List Char) (sd ed : DateTime)
    (hpend : st.pending_expenses u = none)
    (hstate : st.user_report_state u = some (.endStep sd))
    (hroute : amountParse t = none)
    (hparse : parse_date (pyStrip t) = some ed) :
    (toUs ed < toUs sd →
      (step st u now (.textMsg t)).1 = st ∧
        (step st u now (.textMsg t)).1.user_report_state u =
          some (.endStep sd) ∧
        (step st u now (.textMsg t)).2 = [Msg.dateRangeError]) ∧
    (toUs sd ≤ toUs ed →
      (step st u now (.textMsg t)).1.user_report_state u = none ∧
        (step st u now (.textMsg t)).1.db = st.db ∧
        (step st u now (.textMsg t)).2 =
          [Msg.generatingReport] ++
            (if generate_pdf_report_range st u sd ed then [Msg.reportSent]
            else [Msg.noDataReport]) ++ [Msg.mainMenu]) := by
  constructor
  · intro hlt
    have hd : decide (toUs ed < toUs sd) = true := decide_eq_true hlt
    simp [step, hroute, handle_text_input, hpend, hstate, hparse, hd]
  · intro hge
    have hd : decide (toUs ed < toUs sd) = false :=
      decide_eq_false (not_lt.mpr hge)
    simp [step, hroute, handle_text_input, hpend, hstate, hparse, hd, setReport]

/-- Witness for C5: start 31.12.2024 stored, end 01.12.2024 submitted
(rejected), with the acceptance direction vacuously checked at the same
instantiation via its hypothesis. -/
theorem custom_range_end_validation_witness :
    (toUs ⟨2024, 12, 1, 0, 0, 0, 0⟩ < toUs ⟨2024, 12, 31, 0, 0, 0, 0⟩ →
      (step (setReport initState 1 (some (.endStep ⟨2024, 12, 31, 0, 0, 0, 0⟩)))
          1 ⟨2024, 12, 31, 20, 0, 0, 0⟩
          (.textMsg ['0', '1', '.', '1', '2', '.', '2', '0', '2', '4'])).1 =
        setReport initState 1 (some (.endStep ⟨2024, 12, 31, 0, 0, 0, 0⟩)) ∧
        (step (setReport initState 1
            (some (.endStep ⟨2024, 12, 31, 0, 0, 0, 0⟩)))
          1 ⟨2024, 12, 31, 20, 0, 0, 0⟩
          (.textMsg ['0', '1', '.', '1', '2', '.', '2', '0', '2', '4'])).1.user_report_state
            1 = some (.endStep ⟨2024, 12, 31, 0, 0, 0, 0⟩) ∧
        (step (setReport initState 1
            (some (.endStep ⟨2024, 12, 31, 0, 0, 0, 0⟩)))
          1 ⟨2024, 12, 31, 20, 0, 0, 0⟩
          (.textMsg ['0', '1', '.', '1', '2', '.', '2', '0', '2', '4'])).2 =
          [Msg.dateRangeError]) ∧
    (toUs ⟨2024, 12, 31, 0, 0, 0, 0⟩ ≤ toUs ⟨2024, 12, 1, 0, 0, 0, 0⟩ →
      (step (setReport initState 1 (some (.endStep ⟨2024, 12, 31, 0, 0, 0, 0⟩)))
          1 ⟨2024, 12, 31, 20, 0, 0, 0⟩
          (.textMsg ['0', '1', '.', '1', '2', '.', '2', '0', '2', '4'])).1.user_report_state
            1 = none ∧
        (step (setReport initState 1
            (some (.endStep ⟨2024, 12, 31, 0, 0, 0, 0⟩)))
          1 ⟨2024, 12, 31, 20, 0, 0, 0⟩
          (.textMsg ['0', '1', '.', '1', '2', '.', '2', '0', '2', '4'])).1.db =
          (setReport initState 1
            (some (.endStep ⟨2024, 12, 31, 0, 0, 0, 0⟩))).db ∧
        (step (setReport initState 1
            (some (.endStep ⟨2024, 12, 31, 0, 0, 0, 0⟩)))
          1 ⟨2024, 12, 31, 20, 0, 0, 0⟩
          (.textMsg ['0', '1', '.', '1', '2', '.', '2', '0', '2', '4'])).2 =
          [Msg.generatingReport] ++
            (if generate_pdf_report_range
                (setReport initState 1
                  (some (.endStep ⟨2024, 12, 31, 0, 0, 0, 0⟩))) 1
                ⟨2024, 12, 31, 0, 0, 0, 0⟩ ⟨2024, 12, 1, 0, 0, 0, 0⟩ then
              [Msg.reportSent]
            else [Msg.noDataReport]) ++ [Msg.mainMenu]) :=
  custom_range_end_validation
    (setReport initState 1 (some (.endStep ⟨2024, 12, 31, 0, 0, 0, 0⟩)))
    1 ⟨2024, 12, 31, 20, 0, 0, 0⟩
    ['0', '1', '.', '1', '2', '.', '2', '0', '2', '4']
    ⟨2024, 12, 31, 0, 0, 0, 0⟩ ⟨2024, 12, 1, 0, 0, 0, 0⟩
    rfl (by simp [setReport, initState]) (by decide) (by decide)

/-- C9: with a reset confirmation pending, confirming clears the
confirmation and performs exactly the bulk delete for that period; a cancel,
or a confirmation action arriving with no pending confirmation, performs no
deletion and ends with no pending confirmation. -/
theorem reset_confirm_cancel_stale (st : BotState) (u : ℤ) (now : DateTime)
    (X : String) (hconf : st.user_confirmation_state u = some X) :
    ((step st u now (.confirmReset X)).1.user_confirmation_state u = none ∧
      (step st u now (.confirmReset X)).1.db = reset_stats st.db u X now ∧
      (step st u now (.confirmReset X)).2 = [Msg.statsCleared]) ∧
    ((step st u now Event.cancelReset).1.user_confirmation_state u = none ∧
      (step st u now Event.cancelReset).1.db = st.db ∧
      (step st u now Event.cancelReset).2 = [Msg.resetCancelled]) ∧
    (∀ st' : BotState, st'.user_confirmation_state u = none →
      (step st' u now (.confirmReset X)).1 = st' ∧
        (step st' u now (.confirmReset X)).1.db = st'.db ∧
        (step st' u now (.confirmReset X)).2 = [Msg.errorText]) := by
  refine ⟨⟨?_, ?_, ?_⟩, ⟨?_, ?_, ?_⟩, ?_⟩
  · simp [step, confirm_reset_handler, hconf, setConfirm]
  · simp [step, confirm_reset_handler, hconf]
  · simp [step, confirm_reset_handler, hconf]
  · simp [step, cancel_reset_handler, setConfirm]
  · simp [step, cancel_reset_handler, setConfirm]
  · simp [step, cancel_reset_handler]
  · intro st' h
    refine ⟨?_, ?_, ?_⟩ <;> simp [step, confirm_reset_handler, h]

/-- Witness for C9 with a pending "day" confirmation on the initial state. -/
theorem reset_confirm_cancel_stale_witness :
    ((step (setConfirm initState 1 (some "day")) 1 ⟨2024, 1, 5, 8, 0, 0, 0⟩
        (.confirmReset "day")).1.user_confirmation_state 1 = none ∧
      (step (setConfirm initState 1 (some "day")) 1 ⟨2024, 1, 5, 8, 0, 0, 0⟩
        (.confirmReset "day")).1.db =
        reset_stats (setConfirm initState 1 (some "day")).db 1 "day"
          ⟨2024, 1, 5, 8, 0, 0, 0⟩ ∧
      (step (setConfirm initState 1 (some "day")) 1 ⟨2024, 1, 5, 8, 0, 0, 0⟩
        (.confirmReset "day")).2 = [Msg.statsCleared]) ∧
    ((step (setConfirm initState 1 (some "day")) 1 ⟨2024, 1, 5, 8, 0, 0, 0⟩
        Event.cancelReset).1.user_confirmation_state 1 = none ∧
      (step (setConfirm initState 1 (some "day")) 1 ⟨2024, 1, 5, 8, 0, 0, 0⟩
        Event.cancelReset).1.db = (setConfirm initState 1 (some "day")).db ∧
      (step (setConfirm initState 1 (some "day")) 1 ⟨2024, 1, 5, 8, 0, 0, 0⟩
        Event.cancelReset).2 = [Msg.resetCancelled]) ∧
    (∀ st' : BotState, st'.user_confirmation_state 1 = none →
      (step st' 1 ⟨2024, 1, 5, 8, 0, 0, 0⟩ (.confirmReset "day")).1 = st' ∧
        (step st' 1 ⟨2024, 1, 5, 8, 0, 0, 0⟩ (.confirmReset "day")).1.db =
          st'.db ∧
        (step st' 1 ⟨2024, 1, 5, 8, 0, 0, 0⟩ (.confirmReset "day")).2 =
          [Msg.errorText]) :=
  reset_confirm_cancel_stale (setConfirm initState 1 (some "day")) 1
    ⟨2024, 1, 5, 8, 0, 0, 0⟩ "day" (by simp [setConfirm, initState])

theorem amountParse_nonneg (cs : List Char) (q : ℚ)
    (h : amountParse cs = some q) : 0 ≤ q := by
  unfold amountParse at h
  dsimp only at h
  split at h
  · split at h
    · have hq := Option.some.inj h
      rw [← hq]
      positivity
    · split at h
      · have hq := Option.some.inj h
        rw [← hq]
        positivity
      · exact absurd h (by simp)
    · exact absurd h (by simp)
  · exact absurd h (by simp)

theorem mem_reset_stats {r : ExpenseRow} (db : List ExpenseRow) (u : ℤ)
    (p : String) (now : DateTime) (h : r ∈ reset_stats db u p now) :
    r ∈ db := by
  unfold reset_stats at h
  cases hps : periodStartReset p now with
  | none => rw [hps] at h; exact h
  | some s => rw [hps] at h; exact List.mem_of_mem_filter h

theorem step_preserves_PositiveAmounts (st : BotState) (u : ℤ)
    (now : DateTime) (e : Event) (h : PositiveAmounts st) :
    PositiveAmounts (step st u now e).1 := by
  obtain ⟨hp, hdb⟩ := h
  cases e with
  | textMsg text =>
    cases ha : amountParse text with
    | some a =>
      simp only [step, ha]
      unfold get_amount
      split_ifs with h0
      · exact ⟨hp, hdb⟩
      · refine ⟨?_, hdb⟩
        intro v b hb
        simp only [setPending] at hb
        by_cases hv : v = u
        · rw [if_pos hv] at hb
          have hb' := Option.some.inj hb
          have := amountParse_nonneg text a ha
          rw [← hb']
          exact lt_of_le_of_ne this (Ne.symm h0)
        · rw [if_neg hv] at hb
          exact hp v b hb
    | none =>
      cases hpe : st.pending_expenses u with
      | some amount =>
        simp only [step, ha, handle_text_input, hpe]
        split_ifs with h50 h2
        · exact ⟨hp, hdb⟩
        · exact ⟨hp, hdb⟩
        · constructor
          · intro v b hb
            simp only [setPending] at hb
            by_cases hv : v = u
            · rw [if_pos hv] at hb
              exact absurd hb (by simp)
            · rw [if_neg hv] at hb
              exact hp v b hb
          · intro r hr
            simp only [add_expense] at hr
            rcases List.mem_append.mp hr with hr | hr
            · exact hdb r hr
            · have hre : r = ⟨u, amount, String.mk (pyStrip text), now⟩ := by
                simpa using hr
              rw [hre]
              exact hp u amount hpe
      | none =>
        cases hrs : st.user_report_state u with
        | none =>
          simp only [step, ha, handle_text_input, hpe, hrs]
          exact ⟨hp, hdb⟩
        | some rs =>
          cases hpd : parse_date (pyStrip text) with
          | none =>
            simp only [step, ha, handle_text_input, hpe, hrs, hpd]
            exact ⟨hp, hdb⟩
          | some date =>
            cases rs with
            | startStep =>
              simp only [step, ha, handle_text_input, hpe, hrs, hpd]
              exact ⟨fun v b hb => hp v b hb, fun r hr => hdb r hr⟩
            | endStep sd =>
              simp only [step, ha, handle_text_input, hpe, hrs, hpd]
              split_ifs <;>
                exact ⟨fun v b hb => hp v b hb, fun r hr => hdb r hr⟩
  | categoryButton c =>
    simp only [step]
    unfold category_chosen
    cases hpe : st.pending_expenses u with
    | none => exact ⟨hp, hdb⟩
    | some amount =>
      constructor
      · intro v b hb
        simp only [setPending] at hb
        by_cases hv : v = u
        · rw [if_pos hv] at hb
          exact absurd hb (by simp)
        · rw [if_neg hv] at hb
          exact hp v b hb
      · intro r hr
        simp only [add_expense] at hr
        rcases List.mem_append.mp hr with hr | hr
        · exact hdb r hr
        · have : r = ⟨u, amount, c, now⟩ := by simpa using hr
          rw [this]
          exact hp u amount hpe
  | customCategory =>
    simp only [step]
    unfold ask_custom_category
    cases st.pending_expenses u with
    | none => exact ⟨hp, hdb⟩
    | some _ => exact ⟨hp, hdb⟩
  | reportRequest p =>
    simp only [step]
    unfold handle_report_request
    split_ifs <;>
      exact ⟨fun v b hb => hp v b hb, fun r hr => hdb r hr⟩
  | confirmReset p =>
    simp only [step]
    unfold confirm_reset_handler
    cases st.user_confirmation_state u with
    | none => exact ⟨hp, hdb⟩
    | some _ =>
      refine ⟨hp, ?_⟩
      intro r hr
      exact hdb r (mem_reset_stats st.db u p now hr)
  | cancelReset => exact ⟨hp, hdb⟩
  | resetPeriod p => exact ⟨hp, hdb⟩
  | startCmd => exact ⟨hp, hdb⟩
  | backMain => exact ⟨hp, hdb⟩
  | statsMenu => exact ⟨hp, hdb⟩
  | statsPeriod p => exact ⟨hp, hdb⟩
  | chart p => exact ⟨hp, hdb⟩
  | reportMenu => exact ⟨hp, hdb⟩
  | resetMenu => exact ⟨hp, hdb⟩

theorem runTrace_preserves_PositiveAmounts :
    ∀ (tr : List (ℤ × DateTime × Event)) (st : BotState),
      PositiveAmounts st → PositiveAmounts (runTrace st tr)
  | [], _, h => h
  | (u, now, e) :: tr, st, h =>
    runTrace_preserves_PositiveAmounts tr (step st u now e).1
      (step_preserves_PositiveAmounts st u now e h)

theorem initState_PositiveAmounts : PositiveAmounts initState :=
  ⟨fun _ _ h => Option.noConfusion h, fun r hr => absurd hr (List.not_mem_nil r)⟩

/-- C10: starting from process start, after any sequence of updates through
the bot interface, every persisted expense has a strictly positive amount
(the amount regex admits no sign, zero is rejected before storing, and only
stored pending amounts are ever persisted). -/
theorem persisted_amounts_always_positive (tr : List (ℤ × DateTime × Event)) :
    ∀ r ∈ (runTrace initState tr).db, 0 < r.amount :=
  (runTrace_preserves_PositiveAmounts tr initState initState_PositiveAmounts).2

/-- Witness for C10 on the trace "250" then the Food category button. -/
theorem persisted_amounts_always_positive_witness :
    0 < (⟨1, 250, "Food", ⟨2024, 1, 1, 12, 0, 0, 0⟩⟩ : ExpenseRow).amount :=
  persisted_amounts_always_positive
    [(1, ⟨2024, 1, 1, 12, 0, 0, 0⟩, .textMsg ['2', '5', '0']),
      (1, ⟨2024, 1, 1, 12, 0, 0, 0⟩, .categoryButton "Food")]
    ⟨1, 250, "Food", ⟨2024, 1, 1, 12, 0, 0, 0⟩⟩ (by decide)

attribute [local semireducible] Rat.add Rat.mul Rat.inv Rat.sub

set_option maxHeartbeats 4000000 in
set_option maxRecDepth 10000 in
/-- C6 (counterexample): under the program's binary64 float addition, the
flat total of the bot-enterable amounts 1.2 (B), 2.53 (A), 1.2 (A),
0.85 (B), 2.25 (B), 1.27 (A) is the double 9.299999999999999
(5235434566818201/2^49), while the per-category totals 4.3 (B) and 5.0 (A)
sum to the double 9.3 (2617717283409101/2^48) — so grouping is not exactly
sum-preserving as the claim states.  The rows carry the doubles the program
stores (`fl` of the entered decimals). -/
theorem groupByCategoryFloat_sum_ne_totalOfFloat :
    totalOfFloat
        [⟨1, fl (6/5), "B", ⟨2024, 1, 1, 12, 0, 0, 0⟩⟩,
          ⟨1, fl (253/100), "A", ⟨2024, 1, 1, 12, 0, 0, 0⟩⟩,
          ⟨1, fl (6/5), "A", ⟨2024, 1, 1, 12, 0, 0, 0⟩⟩,
          ⟨1, fl (17/20), "B", ⟨2024, 1, 1, 12, 0, 0, 0⟩⟩,
          ⟨1, fl (9/4), "B", ⟨2024, 1, 1, 12, 0, 0, 0⟩⟩,
          ⟨1, fl (127/100), "A", ⟨2024, 1, 1, 12, 0, 0, 0⟩⟩] =
        5235434566818201/562949953421312 ∧
      sumFloat
          ((groupByCategoryFloat
            [⟨1, fl (6/5), "B", ⟨2024, 1, 1, 12, 0, 0, 0⟩⟩,
              ⟨1, fl (253/100), "A", ⟨2024, 1, 1, 12, 0, 0, 0⟩⟩,
              ⟨1, fl (6/5), "A", ⟨2024, 1, 1, 12, 0, 0, 0⟩⟩,
              ⟨1, fl (17/20), "B", ⟨2024, 1, 1, 12, 0, 0, 0⟩⟩,
              ⟨1, fl (9/4), "B", ⟨2024, 1, 1, 12, 0, 0, 0⟩⟩,
              ⟨1, fl (127/100), "A", ⟨2024, 1, 1, 12, 0, 0, 0⟩⟩]).map
            Prod.snd) =
        2617717283409101/281474976710656 ∧
      sumFloat
          ((groupByCategoryFloat
            [⟨1, fl (6/5), "B", ⟨2024, 1, 1, 12, 0, 0, 0⟩⟩,
              ⟨1, fl (253/100), "A", ⟨2024, 1, 1, 12, 0, 0, 0⟩⟩,
              ⟨1, fl (6/5), "A", ⟨2024, 1, 1, 12, 0, 0, 0⟩⟩,
              ⟨1, fl (17/20), "B", ⟨2024, 1, 1, 12, 0, 0, 0⟩⟩,
              ⟨1, fl (9/4), "B", ⟨2024, 1, 1, 12, 0, 0, 0⟩⟩,
              ⟨1, fl (127/100), "A", ⟨2024, 1, 1, 12, 0, 0, 0⟩⟩]).map
            Prod.snd) ≠
        totalOfFloat
          [⟨1, fl (6/5), "B", ⟨2024, 1, 1, 12, 0, 0, 0⟩⟩,
            ⟨1, fl (253/100), "A", ⟨2024, 1, 1, 12, 0, 0, 0⟩⟩,
            ⟨1, fl (6/5), "A", ⟨2024, 1, 1, 12, 0, 0, 0⟩⟩,
            ⟨1, fl (17/20), "B", ⟨2024, 1, 1, 12, 0, 0, 0⟩⟩,
            ⟨1, fl (9/4), "B", ⟨2024, 1, 1, 12, 0, 0, 0⟩⟩,
            ⟨1, fl (127/100), "A", ⟨2024, 1, 1, 12, 0, 0, 0⟩⟩] := by
  refine ⟨by decide, by decide, by decide⟩

end FinanceBot
